import Mathlib

/-!
Verification development for `flair/models/language_model.py`.

The Python module defines a character-level recurrent language model
(`LanguageModel`): an embedding encoder, a multi-layer LSTM core, an
optional linear projection, a linear decoder over the dictionary, plus
hidden-state management, persistence (save / load of models and training
checkpoints) and an autoregressive text generator.

This file gives a shallow embedding of that module.  Tensors are modelled
as a shape label (as `torch` tracks sizes) together with flattened
rational data and a boolean recording whether the tensor still carries
autograd history.  Randomness (weight initialisation, dropout masks,
sampling) is modelled by explicit streams passed as arguments; the
process-wide `flair.device` global is passed as an explicit `Device`
argument.  Python exceptions are modelled with `Except`:
`Err.keyError` for `KeyError` (missing mapping key), `Err.indexError`
for `IndexError`-style out-of-range lookups, `Err.runtimeError` for
`RuntimeError`s raised inside `torch` operations.

External `torch` collaborators (`nn.Embedding`, `nn.Linear`, `nn.LSTM`,
`torch.multinomial`, `squeeze`, `view`, dropout) are modelled from their
documented contracts: shape handling and error conditions are faithful;
the transcendental activations of the LSTM cell and the `exp` used during
sampling are replaced by exact rational surrogates (`sigTanh`, `expQ`),
which preserves every shape, length, positivity and control-flow fact the
development relies on.  `torch`'s default weight initialisers (which are
overwritten by `init_weights` wherever the module cares) are modelled as
draws from a dedicated stream.
-/

namespace LM

/-- Python exception channel: `KeyError`, `IndexError`, `ValueError`,
`RuntimeError`. -/
inductive Err where
  | keyError (key : String)
  | indexError (msg : String)
  | valueError (msg : String)
  | runtimeError (msg : String)
deriving DecidableEq

/-- The process-wide compute device (`flair.device`), abstracted to a tag. -/
abbrev Device := String

/-- A `torch` tensor: shape label, flattened row-major data, and whether the
tensor still carries autograd history. -/
structure Tensor where
  shape : List Nat
  data : List ℚ
  hasHistory : Bool
deriving DecidableEq

/-- An integer (`long`) tensor, used for symbol-index batches. -/
structure IdxTensor where
  shape : List Nat
  data : List Nat
deriving DecidableEq

/-- Contiguous slice of flattened data: `len` entries starting at `off`. -/
def sliceAt (d : List ℚ) (off len : Nat) : List ℚ := (d.drop off).take len

/-- Row `r` of a flattened `rows x cols` matrix. -/
def rowOf (w : List ℚ) (cols r : Nat) : List ℚ := sliceAt w (r * cols) cols

/-- Dot product of two flattened vectors. -/
def dot (a b : List ℚ) : ℚ := (List.zipWith (fun x y => x * y) a b).sum

/-- One draw of `uniform_(lo, hi)` from a unit-interval random value. -/
def drawUniform (lo hi u : ℚ) : ℚ := lo + u * (hi - lo)

/-- Data of a tensor filled by `uniform_(lo, hi)` from stream `u`. -/
def uniformData (lo hi : ℚ) (u : Nat → ℚ) (n : Nat) : List ℚ :=
  (List.range n).map (fun i => drawUniform lo hi (u i))

/-- A freshly allocated parameter tensor whose entries come from the stream
modelling `torch`'s default initialiser for the layer that owns it. -/
def defTensor (sh : List Nat) (udef : Nat → ℚ) : Tensor :=
  { shape := sh, data := (List.range sh.prod).map udef, hasHistory := false }

/-- `torch.nn.Embedding`: a `num_embeddings x embedding_dim` lookup table. -/
structure Embedding where
  num_embeddings : Nat
  embedding_dim : Nat
  weight : Tensor
deriving DecidableEq

/-- Embedding lookup: maps every index of the input batch to its weight row,
appending the embedding dimension to the shape.  Out-of-range indices raise,
as the `torch` lookup does. -/
def Embedding.lookup (e : Embedding) (input : IdxTensor) : Except Err Tensor :=
  if input.data.all (fun i => decide (i < e.num_embeddings)) then
    .ok { shape := input.shape ++ [e.embedding_dim],
          data := (input.data.map (fun i => rowOf e.weight.data e.embedding_dim i)).flatten,
          hasHistory := true }
  else .error (.indexError "index out of range in self")

/-- `torch.nn.Linear`: `weight` is `out_features x in_features`, plus a bias. -/
structure Linear where
  in_features : Nat
  out_features : Nat
  weight : Tensor
  bias : Tensor
deriving DecidableEq

/-- The output entries of an affine map applied row-wise to `rows` input
vectors laid out contiguously in `d`. -/
def linData (l : Linear) (d : List ℚ) (rows : Nat) : List ℚ :=
  ((List.range rows).map (fun r =>
    (List.range l.out_features).map (fun j =>
      dot (rowOf l.weight.data l.in_features j)
          (sliceAt d (r * l.in_features) l.in_features)
        + l.bias.data.getD j 0))).flatten

/-- `nn.Linear` applied to a 2-D input `[n, in_features]`, producing
`[n, out_features]`.  The inner dimension must match, as `torch` checks. -/
def Linear.apply2d (l : Linear) (t : Tensor) : Except Err Tensor :=
  if t.shape.length = 2 then
    if t.shape.getD 1 0 = l.in_features then
      .ok { shape := [t.shape.getD 0 0, l.out_features],
            data := linData l t.data (t.shape.getD 0 0),
            hasHistory := true }
    else .error (.runtimeError "size mismatch")
  else .error (.runtimeError "expected 2 dimensions")

/-- `nn.Linear` applied to a 3-D input `[s, b, in_features]` (it acts on the
last dimension), producing `[s, b, out_features]`. -/
def Linear.apply3d (l : Linear) (t : Tensor) : Except Err Tensor :=
  if t.shape.length = 3 then
    if t.shape.getD 2 0 = l.in_features then
      .ok { shape := [t.shape.getD 0 0, t.shape.getD 1 0, l.out_features],
            data := linData l t.data (t.shape.getD 0 0 * t.shape.getD 1 0),
            hasHistory := true }
    else .error (.runtimeError "size mismatch")
  else .error (.runtimeError "expected 3 dimensions")

/-- Weights of one LSTM layer (`weight_ih_l`, `weight_hh_l`, biases). -/
structure LSTMLayer where
  wih : List ℚ
  whh : List ℚ
  bih : List ℚ
  bhh : List ℚ
deriving DecidableEq

/-- Exact rational surrogate for the `tanh` activation of the LSTM cell. -/
def sigTanh (x : ℚ) : ℚ := x / (1 + |x|)

/-- Exact rational surrogate for the `sigmoid` activation of the LSTM cell. -/
def sigSigm (x : ℚ) : ℚ := (sigTanh x + 1) / 2

/-- Pre-activation value of gate row `r` of an LSTM cell (`torch` gate order:
input, forget, cell, output stacked along the first axis). -/
def cellGate (L : LSTMLayer) (inSize hid : Nat) (x h : List ℚ) (r : Nat) : ℚ :=
  dot (rowOf L.wih inSize r) x + L.bih.getD r 0 + dot (rowOf L.whh hid r) h + L.bhh.getD r 0

/-- One LSTM cell step on a single batch element: from input `x` and carried
`(h, c)` to the new `(h, c)`. -/
def cellStep (L : LSTMLayer) (inSize hid : Nat) (x : List ℚ) (hc : List ℚ × List ℚ) :
    List ℚ × List ℚ :=
  let g := cellGate L inSize hid x hc.1
  let cNew := (List.range hid).map (fun k =>
    sigSigm (g (hid + k)) * hc.2.getD k 0 + sigSigm (g k) * sigTanh (g (2 * hid + k)))
  let hNew := (List.range hid).map (fun k => sigSigm (g (3 * hid + k)) * sigTanh (cNew.getD k 0))
  (hNew, cNew)

/-- One time step of a layer across the whole batch. -/
def stepAll (L : LSTMLayer) (inSize hid : Nat) (xs : List (List ℚ))
    (st : List (List ℚ × List ℚ)) : List (List ℚ × List ℚ) :=
  List.zipWith (fun x hc => cellStep L inSize hid x hc) xs st

/-- Run one LSTM layer over a time-major sequence of batched inputs, threading
the per-batch `(h, c)` states; returns the per-step hidden outputs and the
final states. -/
def runLayer (L : LSTMLayer) (inSize hid : Nat) :
    List (List (List ℚ)) → List (List ℚ × List ℚ) →
    List (List (List ℚ)) × List (List ℚ × List ℚ)
  | [], st => ([], st)
  | ts :: rest, st =>
    let st1 := stepAll L inSize hid ts st
    let r := runLayer L inSize hid rest st1
    (st1.map Prod.fst :: r.1, r.2)

/-- Run the stack of LSTM layers (layer `0` consumes the embedded input, later
layers consume the previous layer's outputs), returning the top-layer output
sequence and the final `(h, c)` states of every layer. -/
def runStack (hid : Nat) :
    List LSTMLayer → Nat → List (List (List ℚ)) → List (List (List ℚ × List ℚ)) →
    List (List (List ℚ)) × List (List (List ℚ × List ℚ))
  | [], _, seqIn, _ => (seqIn, [])
  | L :: Ls, inSize, seqIn, sts =>
    let r := runLayer L inSize hid seqIn (sts.headD [])
    let rest := runStack hid Ls hid r.1 sts.tail
    (rest.1, r.2 :: rest.2)

/-- The `torch.nn.LSTM` module: configuration plus per-layer weights.
The `dropout` argument of the two-plus-layer construction only affects
activations between layers during training; it is value-only and recorded
here without further use. -/
structure LSTM where
  input_size : Nat
  hidden_size : Nat
  num_layers : Nat
  dropout : ℚ
  layers : List LSTMLayer
deriving DecidableEq

/-- The three flattened data fields (output, final h, final c) the LSTM
recurrence produces from flattened inputs of the stated sizes. -/
def lstmData (rnn : LSTM) (embD h0D c0D : List ℚ) (s b : Nat) :
    List ℚ × List ℚ × List ℚ :=
  let e := rnn.input_size
  let hid := rnn.hidden_size
  let seqIn := (List.range s).map (fun t =>
    (List.range b).map (fun j => sliceAt embD ((t * b + j) * e) e))
  let sts := (List.range rnn.num_layers).map (fun l =>
    (List.range b).map (fun j =>
      (sliceAt h0D ((l * b + j) * hid) hid, sliceAt c0D ((l * b + j) * hid) hid)))
  let r := runStack hid rnn.layers rnn.input_size seqIn sts
  ((r.1.map (fun ts => ts.flatten)).flatten,
   (r.2.map (fun st => (st.map Prod.fst).flatten)).flatten,
   (r.2.map (fun st => (st.map Prod.snd).flatten)).flatten)

/-- `nn.LSTM.__call__`: checks that the input is 3-D with the configured
input size and that both hidden tensors have shape
`[num_layers, batch, hidden_size]` (the checks `torch` performs), then runs
the recurrence.  Returns `(output, (h_n, c_n))` with `output` of shape
`[seq, batch, hidden_size]` and final states shaped like the input states. -/
def LSTM.run (rnn : LSTM) (emb h0 c0 : Tensor) : Except Err (Tensor × Tensor × Tensor) :=
  if emb.shape.length = 3 ∧ emb.shape.getD 2 0 = rnn.input_size then
    let s := emb.shape.getD 0 0
    let b := emb.shape.getD 1 0
    let hid := rnn.hidden_size
    if h0.shape = [rnn.num_layers, b, hid] ∧ c0.shape = [rnn.num_layers, b, hid] then
      let r := lstmData rnn emb.data h0.data c0.data s b
      .ok ({ shape := [s, b, hid], data := r.1, hasHistory := true },
           { shape := [rnn.num_layers, b, hid], data := r.2.1, hasHistory := true },
           { shape := [rnn.num_layers, b, hid], data := r.2.2, hasHistory := true })
    else .error (.runtimeError "Expected hidden size mismatch")
  else .error (.runtimeError "input must have 3 dimensions")

/-- `nn.Dropout` application: identity in eval mode; in training mode each
entry is zeroed according to the Bernoulli mask stream or rescaled by
`1 / (1 - p)`.  The shape is preserved either way. -/
def dropoutApply (training : Bool) (p : ℚ) (mask : Nat → Bool) (t : Tensor) : Tensor :=
  if training then
    { shape := t.shape,
      data := (List.range t.data.length).map (fun i =>
        if mask i then 0 else t.data.getD i 0 / (1 - p)),
      hasHistory := t.hasHistory }
  else t

/-- `Tensor.view`: relabels the shape; `torch` requires the element counts to
agree. -/
def Tensor.view (t : Tensor) (sh : List Nat) : Except Err Tensor :=
  if sh.prod = t.shape.prod then
    .ok { shape := sh, data := t.data, hasHistory := t.hasHistory }
  else .error (.runtimeError "shape invalid for input size")

/-- `Tensor.squeeze`: drops every dimension of size one, keeping the data. -/
def Tensor.squeeze (t : Tensor) : Tensor :=
  { shape := t.shape.filter (fun d => decide (d ≠ 1)), data := t.data,
    hasHistory := t.hasHistory }

/-- A hidden state as `repackage_hidden` sees it: an arbitrarily nested tuple
structure whose leaves are tensors. -/
inductive Hid where
  | leaf (t : Tensor)
  | node (children : List Hid)

/-- Pure nesting skeleton of a hidden state (tensor contents erased). -/
inductive Skel where
  | leaf
  | node (children : List Skel)

mutual

/-- The nesting shape of a hidden state. -/
def Hid.skeleton : Hid → Skel
  | .leaf _ => .leaf
  | .node cs => .node (Hid.skeletonL cs)

/-- The nesting shapes of a list of hidden states. -/
def Hid.skeletonL : List Hid → List Skel
  | [] => []
  | c :: cs => c.skeleton :: Hid.skeletonL cs

end

mutual

/-- The leaf tensors of a hidden state, as (shape, data) pairs, left to right. -/
def Hid.leaves : Hid → List (List Nat × List ℚ)
  | .leaf t => [(t.shape, t.data)]
  | .node cs => Hid.leavesL cs

/-- The leaf tensors of a list of hidden states. -/
def Hid.leavesL : List Hid → List (List Nat × List ℚ)
  | [] => []
  | c :: cs => c.leaves ++ Hid.leavesL cs

end

mutual

/-- Whether every leaf tensor of a hidden state is free of autograd history. -/
def Hid.noHistory : Hid → Bool
  | .leaf t => !t.hasHistory
  | .node cs => Hid.noHistoryL cs

/-- Whether every leaf tensor in a list of hidden states is history-free. -/
def Hid.noHistoryL : List Hid → Bool
  | [] => true
  | c :: cs => c.noHistory && Hid.noHistoryL cs

end

/-- The dictionary collaborator (`flair.data.Dictionary`): symbols are kept in
index order; `idx2item[i]` decodes index `i`. -/
structure Dictionary where
  idx2item : List String
deriving DecidableEq

/-- `len(dictionary)`: the vocabulary cardinality. -/
def Dictionary.size (d : Dictionary) : Nat := d.idx2item.length

/-- Opaque optimizer state blob, as produced by `Optimizer.state_dict()`. -/
abbrev OptimState := List ℚ

/-- The `torch.optim.Optimizer` collaborator: only its state blob matters. -/
structure Optimizer where
  st : OptimState
deriving DecidableEq

/-- `Optimizer.state_dict()`. -/
def Optimizer.state_dict (o : Optimizer) : OptimState := o.st

/-- `LanguageModel.state_dict()`: the model's weight tensors, keyed by the
parameter they belong to. -/
structure StateDict where
  encoderWeight : Tensor
  rnnLayers : List LSTMLayer
  projW : Option (Tensor × Tensor)
  decoderWeight : Tensor
  decoderBias : Tensor
deriving DecidableEq

/-- A persisted record, as written by `torch.save` and read by `torch.load`:
a mapping whose keys may each be absent (`none` marks an absent key).
The value stored under `nout` may itself be Python `None`, hence the nested
option. -/
structure Record where
  state_dict : Option StateDict
  dictionary : Option Dictionary
  is_forward_lm : Option Bool
  hidden_size : Option Nat
  nlayers : Option Nat
  embedding_size : Option Nat
  nout : Option (Option Nat)
  dropout : Option ℚ
  optimizer_state_dict : Option OptimState := none
  epoch : Option Nat := none
  split : Option Nat := none
  loss : Option ℚ := none
deriving DecidableEq

/-- `state[key]` on a persisted record: raises `KeyError` when absent. -/
def getKey {α : Type} (v : Option α) (k : String) : Except Err α :=
  match v with
  | some x => .ok x
  | none => .error (.keyError k)

/-- The `LanguageModel` container, mirroring the fields set by `__init__`. -/
structure LanguageModel where
  dictionary : Dictionary
  is_forward_lm : Bool
  dropout : ℚ
  hidden_size : Nat
  embedding_size : Nat
  nlayers : Nat
  encoder : Embedding
  rnn : LSTM
  hidden : Option Hid
  nout : Option Nat
  proj : Option Linear
  decoder : Linear
  training : Bool
  device : Device

/-- `LanguageModel.initialize(matrix)` (the variance-scaled projection init):
reads `(in_, out_)` from the matrix shape, sets
`stdv = sqrt(3 / (in_ + out_))` and refills the matrix uniformly from
`[-stdv, stdv]`.  `math.sqrt` is modelled by the explicit function `sqrtFn`
passed alongside the random stream, since ℚ has no internal square root. -/
def projInit (matrix : Tensor) (sqrtFn : ℚ → ℚ) (u : Nat → ℚ) : Tensor :=
  let in_ := matrix.shape.getD 0 0
  let out_ := matrix.shape.getD 1 0
  let stdv := sqrtFn (3 / ((in_ : ℚ) + (out_ : ℚ)))
  { shape := matrix.shape,
    data := uniformData (-stdv) stdv u matrix.shape.prod,
    hasHistory := matrix.hasHistory }

/-- `LanguageModel.init_weights()`: encoder weights uniform in
`[-0.1, 0.1]`, decoder bias filled with `0`, decoder weights uniform in
`[-0.1, 0.1]`.  The stream `u` is consumed first by the encoder fill, then by
the decoder fill, mirroring the sequential use of the global RNG. -/
def initWeights (m : LanguageModel) (u : Nat → ℚ) : LanguageModel :=
  let encN := m.encoder.weight.shape.prod
  { m with
    encoder := { m.encoder with
      weight := { shape := m.encoder.weight.shape,
                  data := uniformData (-(1/10)) (1/10) u encN,
                  hasHistory := false } },
    decoder := { m.decoder with
      bias := { shape := m.decoder.bias.shape,
                data := List.replicate m.decoder.bias.shape.prod 0,
                hasHistory := false },
      weight := { shape := m.decoder.weight.shape,
                  data := uniformData (-(1/10)) (1/10) (fun i => u (encN + i))
                    m.decoder.weight.shape.prod,
                  hasHistory := false } } }

/-- One freshly constructed LSTM layer, with `torch`-default weights drawn
from the default-initialiser stream.  Layer `0` consumes the embedding width,
later layers the hidden width. -/
def mkLayer (es hs : Nat) (udef : Nat → ℚ) (l : Nat) : LSTMLayer :=
  let inSize := if l = 0 then es else hs
  { wih := (List.range (4 * hs * inSize)).map udef,
    whh := (List.range (4 * hs * hs)).map udef,
    bih := (List.range (4 * hs)).map udef,
    bhh := (List.range (4 * hs)).map udef }

/-- `LanguageModel.__init__`: records the configuration, allocates encoder,
LSTM (with inter-layer dropout only when `nlayers != 1`), optional projection
(immediately re-initialised by `initialize`) and decoder, runs
`init_weights`, and moves the module to the process-wide device.  `u` feeds
`init_weights`, `uproj` feeds `initialize`, `udef` models the `torch` default
initialisers, `sqrtFn` models `math.sqrt`. -/
def LanguageModel.make (d : Dictionary) (ifl : Bool) (hs nl es : Nat)
    (nout : Option Nat) (dr : ℚ) (u uproj udef : Nat → ℚ) (sqrtFn : ℚ → ℚ)
    (dev : Device) : LanguageModel :=
  let N := d.size
  let encoder : Embedding := ⟨N, es, defTensor [N, es] udef⟩
  let rnn : LSTM :=
    { input_size := es, hidden_size := hs, num_layers := nl,
      dropout := if nl = 1 then 0 else dr,
      layers := (List.range nl).map (mkLayer es hs udef) }
  let proj : Option Linear := nout.map (fun no =>
    { in_features := hs, out_features := no,
      weight := projInit (defTensor [no, hs] udef) sqrtFn uproj,
      bias := defTensor [no] udef })
  let decoder : Linear :=
    match nout with
    | some no => ⟨no, N, defTensor [N, no] udef, defTensor [N] udef⟩
    | none => ⟨hs, N, defTensor [N, hs] udef, defTensor [N] udef⟩
  initWeights
    { dictionary := d, is_forward_lm := ifl, dropout := dr, hidden_size := hs,
      embedding_size := es, nlayers := nl, encoder := encoder, rnn := rnn,
      hidden := none, nout := nout, proj := proj, decoder := decoder,
      training := true, device := dev } u

/-- The constructor seen through the exception channel.  `__init__` builds
`nn.Dropout(dropout)` (and, for two or more layers, `nn.LSTM` with the same
`dropout` argument), whose constructors raise `ValueError` when the
probability lies outside `[0, 1]`.  Nothing else is validated: the `torch`
layer constructors accept every nonnegative size. -/
def LanguageModel.init (d : Dictionary) (ifl : Bool) (hs nl es : Nat)
    (nout : Option Nat) (dr : ℚ) (u uproj udef : Nat → ℚ) (sqrtFn : ℚ → ℚ)
    (dev : Device) : Except Err LanguageModel :=
  if dr < 0 ∨ 1 < dr then
    .error (.valueError "dropout probability has to be between 0 and 1")
  else
    .ok (LanguageModel.make d ifl hs nl es nout dr u uproj udef sqrtFn dev)

/-- `LanguageModel.set_hidden`. -/
def LanguageModel.set_hidden (m : LanguageModel) (h : Hid) : LanguageModel :=
  { m with hidden := some h }

/-- `LanguageModel.init_hidden(bsz)`: a zero-filled, history-free pair of
tensors shaped `[nlayers, bsz, hidden_size]`. -/
def LanguageModel.init_hidden (m : LanguageModel) (bsz : Nat) : Tensor × Tensor :=
  ({ shape := [m.nlayers, bsz, m.hidden_size],
     data := List.replicate (m.nlayers * bsz * m.hidden_size) 0, hasHistory := false },
   { shape := [m.nlayers, bsz, m.hidden_size],
     data := List.replicate (m.nlayers * bsz * m.hidden_size) 0, hasHistory := false })

mutual

/-- `LanguageModel.repackage_hidden(h)`: a tensor is replaced by
`torch.tensor(h.data)` (same shape and values, no history); anything else is
a tuple, rebuilt memberwise. -/
def LanguageModel.repackage_hidden : Hid → Hid
  | .leaf t => .leaf { shape := t.shape, data := t.data, hasHistory := false }
  | .node cs => .node (LanguageModel.repackage_hiddenL cs)

/-- Memberwise `repackage_hidden` over a tuple. -/
def LanguageModel.repackage_hiddenL : List Hid → List Hid
  | [] => []
  | c :: cs => LanguageModel.repackage_hidden c :: LanguageModel.repackage_hiddenL cs

end

/-- `LanguageModel.forward(input, hidden)`: embed, dropout, run the LSTM
(after the semantically inert `flatten_parameters`), optionally project,
dropout, decode through a flattened view and reshape the logits back to
three dimensions.  Returns `(logits, representation, new_hidden)`.
`dm1` and `dm2` are the Bernoulli mask streams of the two dropout calls. -/
def LanguageModel.forward (m : LanguageModel) (input : IdxTensor)
    (hidden : Tensor × Tensor) (dm1 dm2 : Nat → Bool) :
    Except Err (Tensor × Tensor × (Tensor × Tensor)) := do
  let encoded ← m.encoder.lookup input
  let emb := dropoutApply m.training m.dropout dm1 encoded
  let r ← m.rnn.run emb hidden.1 hidden.2
  let output0 := r.1
  let hn := r.2.1
  let cn := r.2.2
  let output1 ← match m.proj with
    | some p => p.apply3d output0
    | none => pure output0
  let output2 := dropoutApply m.training m.dropout dm2 output1
  let flat ← output2.view [output2.shape.getD 0 0 * output2.shape.getD 1 0,
                           output2.shape.getD 2 0]
  let decoded ← m.decoder.apply2d flat
  let logits ← decoded.view [output2.shape.getD 0 0, output2.shape.getD 1 0,
                             decoded.shape.getD 1 0]
  return (logits, output2, (hn, cn))

/-- `LanguageModel.state_dict()`. -/
def LanguageModel.state_dict (m : LanguageModel) : StateDict :=
  { encoderWeight := m.encoder.weight,
    rnnLayers := m.rnn.layers,
    projW := m.proj.map (fun p => (p.weight, p.bias)),
    decoderWeight := m.decoder.weight,
    decoderBias := m.decoder.bias }

/-- `load_state_dict`: replaces the module's weights with the saved ones;
raises when the saved parameters do not line up with the module's own
(missing or unexpected keys). -/
def LanguageModel.load_state_dict (m : LanguageModel) (sd : StateDict) :
    Except Err LanguageModel :=
  if sd.rnnLayers.length = m.rnn.layers.length ∧ sd.projW.isSome = m.proj.isSome then
    .ok { m with
      encoder := { m.encoder with weight := sd.encoderWeight },
      rnn := { m.rnn with layers := sd.rnnLayers },
      proj := match m.proj, sd.projW with
        | some p, some wb => some { p with weight := wb.1, bias := wb.2 }
        | _, _ => none,
      decoder := { m.decoder with weight := sd.decoderWeight, bias := sd.decoderBias } }
  else .error (.runtimeError "Error in loading state dict")

/-- `Module.eval()`: switch to inference mode. -/
def LanguageModel.evalMode (m : LanguageModel) : LanguageModel :=
  { m with training := false }

/-- `Module.to(device)`. -/
def LanguageModel.toDevice (m : LanguageModel) (dev : Device) : LanguageModel :=
  { m with device := dev }

/-- `LanguageModel.save(file)`: builds the persisted mapping from the model's
configuration and weights.  The written record is returned alongside the
(untouched) model, mirroring that the Python method only reads `self`. -/
def LanguageModel.save (m : LanguageModel) : Record × LanguageModel :=
  ({ state_dict := some m.state_dict,
     dictionary := some m.dictionary,
     is_forward_lm := some m.is_forward_lm,
     hidden_size := some m.hidden_size,
     nlayers := some m.nlayers,
     embedding_size := some m.embedding_size,
     nout := some m.nout,
     dropout := some m.dropout }, m)

/-- `LanguageModel.save_checkpoint(file, optimizer, epoch, split, loss)`:
the plain record plus optimizer state and training progress. -/
def LanguageModel.save_checkpoint (m : LanguageModel) (optimizer : Optimizer)
    (epoch : Nat) (split : Nat) (loss : ℚ) : Record × LanguageModel :=
  ({ state_dict := some m.state_dict,
     dictionary := some m.dictionary,
     is_forward_lm := some m.is_forward_lm,
     hidden_size := some m.hidden_size,
     nlayers := some m.nlayers,
     embedding_size := some m.embedding_size,
     nout := some m.nout,
     dropout := some m.dropout,
     optimizer_state_dict := some optimizer.state_dict,
     epoch := some epoch,
     split := some split,
     loss := some loss }, m)

/-- `LanguageModel.load_language_model(model_file)`: reads the record, looks
up the configuration keys in the constructor-argument order (each absent key
raises `KeyError`), builds a fresh model, loads the saved weights, switches
to inference mode and moves to the process-wide device. -/
def LanguageModel.load_language_model (r : Record) (u uproj udef : Nat → ℚ)
    (sqrtFn : ℚ → ℚ) (dev : Device) : Except Err LanguageModel := do
  let d ← getKey r.dictionary "dictionary"
  let ifl ← getKey r.is_forward_lm "is_forward_lm"
  let hs ← getKey r.hidden_size "hidden_size"
  let nl ← getKey r.nlayers "nlayers"
  let es ← getKey r.embedding_size "embedding_size"
  let no ← getKey r.nout "nout"
  let dr ← getKey r.dropout "dropout"
  let model ← LanguageModel.init d ifl hs nl es no dr u uproj udef sqrtFn dev
  let sd ← getKey r.state_dict "state_dict"
  let model ← model.load_state_dict sd
  return (model.evalMode).toDevice dev

/-- Result of `load_checkpoint`: the mapping it returns. -/
structure Checkpoint where
  model : LanguageModel
  epoch : Option Nat
  split : Option Nat
  loss : Option ℚ
  optimizer_state_dict : Option OptimState

/-- `LanguageModel.load_checkpoint(model_file)`: like the model loader, but
first extracts the optional progress fields, substituting `none` when a field
is absent instead of failing. -/
def LanguageModel.load_checkpoint (r : Record) (u uproj udef : Nat → ℚ)
    (sqrtFn : ℚ → ℚ) (dev : Device) : Except Err Checkpoint := do
  let epoch := r.epoch
  let split := r.split
  let loss := r.loss
  let osd := r.optimizer_state_dict
  let d ← getKey r.dictionary "dictionary"
  let ifl ← getKey r.is_forward_lm "is_forward_lm"
  let hs ← getKey r.hidden_size "hidden_size"
  let nl ← getKey r.nlayers "nlayers"
  let es ← getKey r.embedding_size "embedding_size"
  let no ← getKey r.nout "nout"
  let dr ← getKey r.dropout "dropout"
  let model ← LanguageModel.init d ifl hs nl es no dr u uproj udef sqrtFn dev
  let sd ← getKey r.state_dict "state_dict"
  let model ← model.load_state_dict sd
  return { model := (model.evalMode).toDevice dev, epoch := epoch, split := split,
           loss := loss, optimizer_state_dict := osd }

/-- Exact rational surrogate for `exp` in the sampling loop: positive
everywhere, which is the only property the sampler relies on. -/
def expQ (x : ℚ) : ℚ := if 0 ≤ x then 1 + x else 1 / (1 - x)

/-- Leftmost index whose weight bucket contains the target mass. -/
def multinomialPick : List ℚ → ℚ → Nat
  | [], _ => 0
  | w :: ws, target => if target < w then 0 else multinomialPick ws (target - w) + 1

/-- `torch.multinomial(weights, 1)[0]`: draws one index proportionally to the
weights; `torch` rejects a distribution with no positive mass. -/
def multinomial (w : List ℚ) (u : ℚ) : Except Err Nat :=
  if 0 < w.sum then .ok (multinomialPick w (u * w.sum))
  else .error (.runtimeError "invalid multinomial distribution")

/-- The sampling loop of `generate_text`: at each of the remaining steps,
forward the single-symbol input, turn the logits into positive weights via
`exp(logits / 1.0)`, sample an index, decode it through `idx2item`
(an out-of-range index would raise), refill the input with the sampled index
and carry the hidden state. `i` numbers the iteration for the streams. -/
def genLoop (m : LanguageModel) (ur : Nat → ℚ) (dm : Nat → Nat → Bool) :
    Nat → Nat → IdxTensor → Tensor × Tensor → Except Err (List String)
  | 0, _, _, _ => .ok []
  | k + 1, i, input, hidden => do
    let r ← m.forward input hidden (fun j => dm (2 * i) j) (fun j => dm (2 * i + 1) j)
    let prediction := r.1
    let hidden' := r.2.2
    let word_weights := (prediction.squeeze).data.map (fun x => expQ (x / 1))
    let word_idx ← multinomial word_weights (ur i)
    let word ← if h : word_idx < m.dictionary.idx2item.length then
        .ok (m.dictionary.idx2item.get ⟨word_idx, h⟩)
      else .error (.indexError "list index out of range")
    let input' : IdxTensor := { shape := input.shape, data := input.data.map (fun _ => word_idx) }
    let rest ← genLoop m ur dm k (i + 1) input' hidden'
    return word :: rest

/-- `LanguageModel.generate_text(number_of_characters)`: start from a zero
hidden state and one uniformly random initial index
(`rand(1,1).mul(len).long()`, i.e. the floor of `u0 * len`), run the
sampling loop, and join the sampled symbols into one string.  `u0` models
the initial `torch.rand` draw, `ur` the per-step `multinomial` draws, `dm`
the per-step dropout masks. -/
def LanguageModel.generate_text (m : LanguageModel) (number_of_characters : Nat)
    (u0 : ℚ) (ur : Nat → ℚ) (dm : Nat → Nat → Bool) : Except Err String := do
  let idx2item := m.dictionary.idx2item
  let hidden := m.init_hidden 1
  let input : IdxTensor :=
    { shape := [1, 1], data := [(⌊u0 * (idx2item.length : ℚ)⌋).toNat] }
  let cs ← genLoop m ur dm number_of_characters 0 input hidden
  return String.join cs

end LM

namespace LM

/-! ## General lemmas about the embedding -/

/-- Induction principle for hidden-state trees, with an auxiliary motive for
child lists. -/
theorem hid_induction {P : Hid → Prop} {Q : List Hid → Prop}
    (h1 : ∀ t, P (Hid.leaf t)) (h2 : ∀ cs, Q cs → P (Hid.node cs))
    (h3 : Q []) (h4 : ∀ c cs, P c → Q cs → Q (c :: cs)) : ∀ h, P h :=
  fun h => Hid.rec h1 h2 h3 h4 h

/-- List form of the hidden-state induction principle. -/
theorem hid_inductionL {P : Hid → Prop} {Q : List Hid → Prop}
    (h1 : ∀ t, P (Hid.leaf t)) (h2 : ∀ cs, Q cs → P (Hid.node cs))
    (h3 : Q []) (h4 : ∀ c cs, P c → Q cs → Q (c :: cs)) : ∀ cs, Q cs := by
  intro cs
  induction cs with
  | nil => exact h3
  | cons c cs ih => exact h4 c cs (hid_induction h1 h2 h3 h4 c) ih

/-- `repackage_hidden` preserves the nesting skeleton. -/
theorem repackage_skeleton (h : Hid) :
    (LanguageModel.repackage_hidden h).skeleton = h.skeleton := by
  refine @hid_induction
    (fun h => (LanguageModel.repackage_hidden h).skeleton = h.skeleton)
    (fun cs => Hid.skeletonL (LanguageModel.repackage_hiddenL cs) = Hid.skeletonL cs)
    ?_ ?_ ?_ ?_ h
  · intro t; rfl
  · intro cs ih
    simp only [LanguageModel.repackage_hidden, Hid.skeleton, ih]
  · rfl
  · intro c cs ihc ihcs
    simp only [LanguageModel.repackage_hiddenL, Hid.skeletonL, ihc, ihcs]

/-- `repackage_hidden` preserves every leaf tensor's shape and values. -/
theorem repackage_leaves (h : Hid) :
    (LanguageModel.repackage_hidden h).leaves = h.leaves := by
  refine @hid_induction
    (fun h => (LanguageModel.repackage_hidden h).leaves = h.leaves)
    (fun cs => Hid.leavesL (LanguageModel.repackage_hiddenL cs) = Hid.leavesL cs)
    ?_ ?_ ?_ ?_ h
  · intro t; rfl
  · intro cs ih
    simp only [LanguageModel.repackage_hidden, Hid.leaves, ih]
  · rfl
  · intro c cs ihc ihcs
    simp only [LanguageModel.repackage_hiddenL, Hid.leavesL, ihc, ihcs]

/-- After `repackage_hidden`, no leaf carries computation history. -/
theorem repackage_noHistory (h : Hid) :
    (LanguageModel.repackage_hidden h).noHistory = true := by
  refine @hid_induction
    (fun h => (LanguageModel.repackage_hidden h).noHistory = true)
    (fun cs => Hid.noHistoryL (LanguageModel.repackage_hiddenL cs) = true)
    ?_ ?_ ?_ ?_ h
  · intro t; rfl
  · intro cs ih
    simp only [LanguageModel.repackage_hidden, Hid.noHistory, ih]
  · rfl
  · intro c cs ihc ihcs
    simp only [LanguageModel.repackage_hiddenL, Hid.noHistoryL, ihc, ihcs,
      Bool.and_true]

/-! ## Claim theorems: hidden state, construction, persistence frame -/

/-- C2: `repackage_hidden` returns a structure of identical nesting shape
whose leaf tensors keep their shapes and values but carry no computation
history, at every nesting depth; applied to a fresh `init_hidden` pair it
yields numerically identical tensors. -/
theorem repackage_hidden_spec :
    (∀ h : Hid,
      (LanguageModel.repackage_hidden h).skeleton = h.skeleton ∧
      (LanguageModel.repackage_hidden h).leaves = h.leaves ∧
      (LanguageModel.repackage_hidden h).noHistory = true) ∧
    (∀ (m : LanguageModel) (b : Nat),
      (LanguageModel.repackage_hidden
          (Hid.node [Hid.leaf (m.init_hidden b).1, Hid.leaf (m.init_hidden b).2])).leaves
        = (Hid.node [Hid.leaf (m.init_hidden b).1, Hid.leaf (m.init_hidden b).2]).leaves) :=
  ⟨fun h => ⟨repackage_skeleton h, repackage_leaves h, repackage_noHistory h⟩,
   fun _ _ => repackage_leaves _⟩

/-- The constructor succeeds whenever the dropout probability is in range. -/
theorem init_ok (d : Dictionary) (ifl : Bool) (hs nl es : Nat)
    (nout : Option Nat) (dr : ℚ) (u up ud : Nat → ℚ) (sq : ℚ → ℚ) (dev : Device)
    (h0 : 0 ≤ dr) (h1 : dr ≤ 1) :
    LanguageModel.init d ifl hs nl es nout dr u up ud sq dev
      = .ok (LanguageModel.make d ifl hs nl es nout dr u up ud sq dev) := by
  unfold LanguageModel.init
  rw [if_neg (by rw [not_or, not_lt, not_lt]; exact ⟨h0, h1⟩)]

/-- C4 counterexample: constructing with `nlayers = 0` (violating
`layer_count < 1`) raises nothing at all — the constructor returns a model,
so no `ConfigurationError` is raised at construction. -/
theorem init_zero_layers_succeeds :
    ∃ model, LanguageModel.init ⟨["a"]⟩ true 10 0 100 none (1/2)
      (fun _ => 0) (fun _ => 0) (fun _ => 0) (fun _ => 0) "cpu" = .ok model :=
  ⟨_, init_ok ⟨["a"]⟩ true 10 0 100 none (1/2) (fun _ => 0) (fun _ => 0)
    (fun _ => 0) (fun _ => 0) "cpu" (by norm_num) (by norm_num)⟩

/-- C4 amended: construction never validates `nlayers`, `hidden_size` or
`embedding_size` and raises no `ConfigurationError` (no such type exists):
every nonnegative size configuration with an in-range dropout probability
constructs a model storing the supplied values unchanged.  The only
construction-time rejection is the `ValueError` the torch dropout modules
raise for a dropout probability outside `[0, 1]`. -/
theorem init_validation_spec :
    (∀ (d : Dictionary) (ifl : Bool) (hs nl es : Nat) (nout : Option Nat) (dr : ℚ)
        (u up ud : Nat → ℚ) (sq : ℚ → ℚ) (dev : Device),
      0 ≤ dr → dr ≤ 1 →
      ∃ model, LanguageModel.init d ifl hs nl es nout dr u up ud sq dev = .ok model ∧
        model.nlayers = nl ∧ model.hidden_size = hs ∧ model.embedding_size = es) ∧
    (∀ (d : Dictionary) (ifl : Bool) (hs nl es : Nat) (nout : Option Nat) (dr : ℚ)
        (u up ud : Nat → ℚ) (sq : ℚ → ℚ) (dev : Device),
      dr < 0 ∨ 1 < dr →
      LanguageModel.init d ifl hs nl es nout dr u up ud sq dev
        = .error (Err.valueError "dropout probability has to be between 0 and 1")) := by
  constructor
  · intro d ifl hs nl es nout dr u up ud sq dev h0 h1
    exact ⟨_, init_ok d ifl hs nl es nout dr u up ud sq dev h0 h1, rfl, rfl, rfl⟩
  · intro d ifl hs nl es nout dr u up ud sq dev hbad
    unfold LanguageModel.init
    rw [if_pos hbad]

/-- Witness for C4's amended statement: `nlayers = 0` with dropout `1/2`
constructs a model storing the fields unchanged, while dropout `2` is
rejected with the torch `ValueError`. -/
theorem init_validation_spec_witness :
    (∃ model, LanguageModel.init ⟨["a"]⟩ true 10 0 100 none (1/2)
        (fun _ => 0) (fun _ => 0) (fun _ => 0) (fun _ => 1) "cpu" = .ok model ∧
      model.nlayers = 0 ∧ model.hidden_size = 10 ∧ model.embedding_size = 100) ∧
    LanguageModel.init ⟨["a"]⟩ true 10 0 100 none 2
        (fun _ => 0) (fun _ => 0) (fun _ => 0) (fun _ => 1) "cpu"
      = .error (Err.valueError "dropout probability has to be between 0 and 1") :=
  ⟨init_validation_spec.1 ⟨["a"]⟩ true 10 0 100 none (1/2) (fun _ => 0) (fun _ => 0)
      (fun _ => 0) (fun _ => 1) "cpu" (by norm_num) (by norm_num),
   init_validation_spec.2 ⟨["a"]⟩ true 10 0 100 none 2 (fun _ => 0) (fun _ => 0)
     (fun _ => 0) (fun _ => 1) "cpu" (Or.inr (by norm_num))⟩

/-- C9: `init_hidden(b)` returns a pair of tensors, each shaped
`[nlayers, b, hidden_size]`, zero-filled and free of computation history. -/
theorem init_hidden_spec (m : LanguageModel) (b : Nat) :
    (m.init_hidden b).1.shape = [m.nlayers, b, m.hidden_size] ∧
    (m.init_hidden b).2.shape = [m.nlayers, b, m.hidden_size] ∧
    (∀ x ∈ (m.init_hidden b).1.data, x = 0) ∧
    (∀ x ∈ (m.init_hidden b).2.data, x = 0) ∧
    (m.init_hidden b).1.hasHistory = false ∧
    (m.init_hidden b).2.hasHistory = false := by
  refine ⟨rfl, rfl, ?_, ?_, rfl, rfl⟩ <;>
  · intro x hx
    simp only [LanguageModel.init_hidden] at hx
    exact List.eq_of_mem_replicate hx

/-- C10: `save` and `save_checkpoint` only read the model: the model value
they hand back (every weight, configuration field and the `hidden` slot) is
the one they were called on. -/
theorem save_frame (m : LanguageModel) (opt : Optimizer) (e s : Nat) (l : ℚ) :
    (m.save).2 = m ∧ (m.save_checkpoint opt e s l).2 = m :=
  ⟨rfl, rfl⟩

end LM

namespace LM

/-! ## Success-path equations for the forward pass -/

/-- Bind on `Except` reduces on a success value. -/
theorem exceptBind_ok {α β : Type} (a : α) (f : α → Except Err β) :
    (Except.ok a : Except Err α) >>= f = f a := rfl

/-- `pure` on `Except` is `ok`. -/
theorem exceptPure {α : Type} (a : α) : (pure a : Except Err α) = .ok a := rfl

/-- Bind on `Except` propagates an error. -/
theorem exceptBind_err {α β : Type} (e : Err) (f : α → Except Err β) :
    (Except.error e : Except Err α) >>= f = .error e := rfl

/-- Dropout never changes the shape label. -/
theorem dropoutApply_shape (tr : Bool) (p : ℚ) (mk : Nat → Bool) (t : Tensor) :
    (dropoutApply tr p mk t).shape = t.shape := by
  unfold dropoutApply; split <;> rfl

/-- Embedding lookup succeeds when every index is in range. -/
theorem lookup_ok (e : Embedding) (input : IdxTensor)
    (h : input.data.all (fun i => decide (i < e.num_embeddings)) = true) :
    e.lookup input = .ok
      { shape := input.shape ++ [e.embedding_dim],
        data := (input.data.map (fun i => rowOf e.weight.data e.embedding_dim i)).flatten,
        hasHistory := true } := by
  unfold Embedding.lookup; rw [if_pos h]

/-- The LSTM call succeeds on well-shaped inputs, with the stated shapes. -/
theorem run_ok (rnn : LSTM) (emb h0 c0 : Tensor)
    (h1 : emb.shape.length = 3) (h2 : emb.shape.getD 2 0 = rnn.input_size)
    (h3 : h0.shape = [rnn.num_layers, emb.shape.getD 1 0, rnn.hidden_size])
    (h4 : c0.shape = [rnn.num_layers, emb.shape.getD 1 0, rnn.hidden_size]) :
    rnn.run emb h0 c0 = .ok
      ({ shape := [emb.shape.getD 0 0, emb.shape.getD 1 0, rnn.hidden_size],
         data := (lstmData rnn emb.data h0.data c0.data
           (emb.shape.getD 0 0) (emb.shape.getD 1 0)).1, hasHistory := true },
       { shape := [rnn.num_layers, emb.shape.getD 1 0, rnn.hidden_size],
         data := (lstmData rnn emb.data h0.data c0.data
           (emb.shape.getD 0 0) (emb.shape.getD 1 0)).2.1, hasHistory := true },
       { shape := [rnn.num_layers, emb.shape.getD 1 0, rnn.hidden_size],
         data := (lstmData rnn emb.data h0.data c0.data
           (emb.shape.getD 0 0) (emb.shape.getD 1 0)).2.2, hasHistory := true }) := by
  unfold LSTM.run
  rw [if_pos ⟨h1, h2⟩, if_pos ⟨h3, h4⟩]

/-- `apply2d` succeeds on a matching 2-D input. -/
theorem apply2d_ok (l : Linear) (t : Tensor)
    (h1 : t.shape.length = 2) (h2 : t.shape.getD 1 0 = l.in_features) :
    l.apply2d t = .ok
      { shape := [t.shape.getD 0 0, l.out_features],
        data := linData l t.data (t.shape.getD 0 0), hasHistory := true } := by
  unfold Linear.apply2d
  rw [if_pos h1, if_pos h2]

/-- `apply3d` succeeds on a matching 3-D input. -/
theorem apply3d_ok (l : Linear) (t : Tensor)
    (h1 : t.shape.length = 3) (h2 : t.shape.getD 2 0 = l.in_features) :
    l.apply3d t = .ok
      { shape := [t.shape.getD 0 0, t.shape.getD 1 0, l.out_features],
        data := linData l t.data (t.shape.getD 0 0 * t.shape.getD 1 0),
        hasHistory := true } := by
  unfold Linear.apply3d
  rw [if_pos h1, if_pos h2]

/-- `view` succeeds when the element counts agree. -/
theorem view_ok (t : Tensor) (sh : List Nat) (h : sh.prod = t.shape.prod) :
    t.view sh = .ok { shape := sh, data := t.data, hasHistory := t.hasHistory } := by
  unfold Tensor.view; rw [if_pos h]

/-- Sum of a constant-valued map over `range`. -/
theorem sum_map_const_range (n c : Nat) :
    ((List.range n).map (fun _ => c)).sum = n * c := by
  induction n with
  | zero => simp
  | succ k ih => simp [List.range_succ, ih, Nat.succ_mul]

/-- Row count times width is the length of an affine map's output data. -/
theorem linData_length (l : Linear) (d : List ℚ) (rows : Nat) :
    (linData l d rows).length = rows * l.out_features := by
  simp [linData, List.length_flatten, List.map_map, Function.comp_def,
    sum_map_const_range]

end LM

namespace LM

/-- The forward pass succeeds on a well-shaped input and hidden pair, and its
three results have the shapes `torch` guarantees: logits
`[s, b, out_features]`, representation `[s, b, W]` (`W` the projection width
when a projection is configured, the recurrent width otherwise), and a new
hidden pair shaped like the input hidden pair. -/
theorem forward_ok (m : LanguageModel) (input : IdxTensor) (s b W : Nat)
    (hd : Tensor × Tensor) (dm1 dm2 : Nat → Bool)
    (hin : input.shape = [s, b])
    (hidx : input.data.all (fun i => decide (i < m.encoder.num_embeddings)) = true)
    (hrnnIn : m.rnn.input_size = m.encoder.embedding_dim)
    (hh : hd.1.shape = [m.rnn.num_layers, b, m.rnn.hidden_size])
    (hc : hd.2.shape = [m.rnn.num_layers, b, m.rnn.hidden_size])
    (hproj : ∀ p, m.proj = some p → p.in_features = m.rnn.hidden_size ∧ p.out_features = W)
    (hnoproj : m.proj = none → m.rnn.hidden_size = W)
    (hdec : m.decoder.in_features = W) :
    ∃ logits rep hn cn,
      m.forward input hd dm1 dm2 = .ok (logits, rep, (hn, cn)) ∧
      logits.shape = [s, b, m.decoder.out_features] ∧
      logits.data.length = s * b * m.decoder.out_features ∧
      rep.shape = [s, b, W] ∧
      hn.shape = [m.rnn.num_layers, b, m.rnn.hidden_size] ∧
      cn.shape = [m.rnn.num_layers, b, m.rnn.hidden_size] := by
  have hlk := lookup_ok m.encoder input hidx
  rcases hp : m.proj with _ | p
  · have hW := hnoproj hp
    simp only [LanguageModel.forward, hlk, hin, exceptBind_ok, exceptPure, hp,
      run_ok, apply2d_ok, view_ok, dropoutApply_shape, hh, hc, hrnnIn,
      List.cons_append, List.nil_append, List.length_cons, List.length_nil,
      List.getD_cons_zero, List.getD_cons_succ, List.prod_cons, List.prod_nil,
      hdec, hW, Nat.mul_assoc, mul_one, eq_self_iff_true, and_self, if_true]
    exact ⟨_, _, _, _, rfl, rfl, by simp [linData_length, Nat.mul_assoc],
      by simp [dropoutApply_shape, hW], rfl, rfl⟩
  · have hWin := (hproj p hp).1
    have hWout := (hproj p hp).2
    simp only [LanguageModel.forward, hlk, hin, exceptBind_ok, exceptPure, hp,
      run_ok, apply3d_ok, apply2d_ok, view_ok, dropoutApply_shape, hh, hc, hrnnIn,
      List.cons_append, List.nil_append, List.length_cons, List.length_nil,
      List.getD_cons_zero, List.getD_cons_succ, List.prod_cons, List.prod_nil,
      hdec, hWin, hWout, Nat.mul_assoc, mul_one, eq_self_iff_true, and_self, if_true]
    exact ⟨_, _, _, _, rfl, rfl, by simp [linData_length, Nat.mul_assoc],
      by simp [dropoutApply_shape, hWout], rfl, rfl⟩

end LM

namespace LM

/-- The dictionary stored by the constructor. -/
theorem make_dictionary (d : Dictionary) (ifl : Bool) (hs nl es : Nat)
    (nout : Option Nat) (dr : ℚ) (u up ud : Nat → ℚ) (sq : ℚ → ℚ) (dev : Device) :
    (LanguageModel.make d ifl hs nl es nout dr u up ud sq dev).dictionary = d := rfl

/-- The decoder input width is the projection width when configured, else the
recurrent width. -/
theorem make_decoder_in (d : Dictionary) (ifl : Bool) (hs nl es : Nat)
    (nout : Option Nat) (dr : ℚ) (u up ud : Nat → ℚ) (sq : ℚ → ℚ) (dev : Device) :
    (LanguageModel.make d ifl hs nl es nout dr u up ud sq dev).decoder.in_features
      = nout.getD hs := by
  cases nout <;> rfl

/-- The decoder output width is always the dictionary size. -/
theorem make_decoder_out (d : Dictionary) (ifl : Bool) (hs nl es : Nat)
    (nout : Option Nat) (dr : ℚ) (u up ud : Nat → ℚ) (sq : ℚ → ℚ) (dev : Device) :
    (LanguageModel.make d ifl hs nl es nout dr u up ud sq dev).decoder.out_features
      = d.size := by
  cases nout <;> rfl

/-- C1: on every valid configuration, a 2-D index batch `[s, b]` of in-range
symbol indices and a hidden pair shaped `[nlayers, b, hidden_size]`,
`forward` returns logits shaped `[s, b, N]` (`N` the dictionary size), a
representation shaped `[s, b, nout-or-hidden]`, and a new hidden pair whose
shapes equal the input hidden shapes. -/
theorem forward_shapes (d : Dictionary) (ifl : Bool) (hs nl es : Nat)
    (nout : Option Nat) (dr : ℚ) (u up ud : Nat → ℚ) (sq : ℚ → ℚ) (dev : Device)
    (input : IdxTensor) (s b : Nat) (hd : Tensor × Tensor) (dm1 dm2 : Nat → Bool)
    (hin : input.shape = [s, b])
    (hidx : ∀ i ∈ input.data, i < d.size)
    (hh : hd.1.shape = [nl, b, hs]) (hc : hd.2.shape = [nl, b, hs]) :
    ∃ logits rep hn cn,
      (LanguageModel.make d ifl hs nl es nout dr u up ud sq dev).forward input hd dm1 dm2
        = .ok (logits, rep, (hn, cn)) ∧
      logits.shape = [s, b, d.size] ∧
      rep.shape = [s, b, nout.getD hs] ∧
      hn.shape = hd.1.shape ∧ cn.shape = hd.2.shape := by
  have hidx' : input.data.all
      (fun i => decide (i < (LanguageModel.make d ifl hs nl es nout dr u up ud sq
        dev).encoder.num_embeddings)) = true :=
    List.all_eq_true.mpr (fun i hi => decide_eq_true (hidx i hi))
  cases nout with
  | none =>
    obtain ⟨L, R, HN, CN, hF, hLs, _, hRs, hHs, hCs⟩ :=
      forward_ok (LanguageModel.make d ifl hs nl es none dr u up ud sq dev)
        input s b hs hd dm1 dm2 hin hidx' rfl hh hc
        (fun p hp => Option.noConfusion hp) (fun _ => rfl) rfl
    exact ⟨L, R, HN, CN, hF, hLs, hRs, by rw [hh]; exact hHs, by rw [hc]; exact hCs⟩
  | some no =>
    obtain ⟨L, R, HN, CN, hF, hLs, _, hRs, hHs, hCs⟩ :=
      forward_ok (LanguageModel.make d ifl hs nl es (some no) dr u up ud sq dev)
        input s b no hd dm1 dm2 hin hidx' rfl hh hc
        (fun p hp => by injection hp with h; subst h; exact ⟨rfl, rfl⟩)
        (fun hno => Option.noConfusion hno) rfl
    exact ⟨L, R, HN, CN, hF, hLs, hRs, by rw [hh]; exact hHs, by rw [hc]; exact hCs⟩

/-- Witness for C1 at a concrete two-symbol model, `s = b = 1`. -/
theorem forward_shapes_witness :
    ∃ logits rep hn cn,
      (LanguageModel.make ⟨["a", "b"]⟩ true 1 1 1 none (1/2) (fun _ => 0) (fun _ => 0)
          (fun _ => 0) (fun _ => 1) "cpu").forward ⟨[1, 1], [0]⟩
          (⟨[1, 1, 1], [0], false⟩, ⟨[1, 1, 1], [0], false⟩)
          (fun _ => false) (fun _ => false)
        = .ok (logits, rep, (hn, cn)) ∧
      logits.shape = [1, 1, 2] ∧
      rep.shape = [1, 1, 1] ∧
      hn.shape = [1, 1, 1] ∧ cn.shape = [1, 1, 1] :=
  forward_shapes ⟨["a", "b"]⟩ true 1 1 1 none (1/2) (fun _ => 0) (fun _ => 0)
    (fun _ => 0) (fun _ => 1) "cpu" ⟨[1, 1], [0]⟩ 1 1
    (⟨[1, 1, 1], [0], false⟩, ⟨[1, 1, 1], [0], false⟩)
    (fun _ => false) (fun _ => false) rfl (by decide) rfl rfl

end LM

namespace LM

/-- The sampling weights are positive everywhere. -/
theorem expQ_pos (x : ℚ) : 0 < expQ x := by
  by_cases h : 0 ≤ x
  · simp only [expQ, if_pos h]; linarith
  · simp only [expQ, if_neg h]
    apply div_pos one_pos
    have := not_le.mp h
    linarith

/-- The sampled bucket index stays inside the weight list whenever the target
mass lies strictly below the total. -/
theorem multinomialPick_lt (w : List ℚ) (target : ℚ) (h0 : 0 ≤ target)
    (hlt : target < w.sum) : multinomialPick w target < w.length := by
  induction w generalizing target with
  | nil => simp only [List.sum_nil] at hlt; linarith
  | cons x ws ih =>
    simp only [multinomialPick, List.length_cons]
    by_cases hx : target < x
    · simp [hx]
    · rw [if_neg hx]
      have h1 : 0 ≤ target - x := by linarith [not_lt.mp hx]
      have h2 : target - x < ws.sum := by
        rw [List.sum_cons] at hlt; linarith
      exact Nat.add_lt_add_right (ih (target - x) h1 h2) 1

/-- The sampling loop of `generate_text` succeeds for `k` steps on any model
whose decoder ranges over a non-empty dictionary, producing exactly `k`
dictionary symbols and threading well-shaped single-symbol state. -/
theorem genLoop_ok (m : LanguageModel) (W : Nat) (ur : Nat → ℚ) (dm : Nat → Nat → Bool)
    (hur : ∀ i, 0 ≤ ur i ∧ ur i < 1)
    (hrnnIn : m.rnn.input_size = m.encoder.embedding_dim)
    (hproj : ∀ p, m.proj = some p → p.in_features = m.rnn.hidden_size ∧ p.out_features = W)
    (hnoproj : m.proj = none → m.rnn.hidden_size = W)
    (hdec : m.decoder.in_features = W)
    (hN : m.decoder.out_features = m.dictionary.idx2item.length)
    (hNE : m.encoder.num_embeddings = m.dictionary.idx2item.length)
    (hpos : 0 < m.dictionary.idx2item.length) :
    ∀ (k i : Nat) (input : IdxTensor) (hd : Tensor × Tensor),
      input.shape = [1, 1] →
      input.data.all (fun j => decide (j < m.encoder.num_embeddings)) = true →
      hd.1.shape = [m.rnn.num_layers, 1, m.rnn.hidden_size] →
      hd.2.shape = [m.rnn.num_layers, 1, m.rnn.hidden_size] →
      ∃ cs, genLoop m ur dm k i input hd = .ok cs ∧ cs.length = k ∧
        ∀ c ∈ cs, c ∈ m.dictionary.idx2item := by
  intro k
  induction k with
  | zero =>
    intro i input hd _ _ _ _
    exact ⟨[], rfl, rfl, by simp⟩
  | succ k ih =>
    intro i input hd hin hidx hh hc
    obtain ⟨L, R, HN, CN, hF, hLs, hLl, hRs, hHs, hCs⟩ :=
      forward_ok m input 1 1 W hd (fun j => dm (2 * i) j) (fun j => dm (2 * i + 1) j)
        hin hidx hrnnIn hh hc hproj hnoproj hdec
    have hlen : ((Tensor.squeeze L).data.map (fun x => expQ (x / 1))).length
        = m.dictionary.idx2item.length := by
      simp [Tensor.squeeze, List.length_map, hLl, hN, one_mul]
    have hposw : ∀ y ∈ (Tensor.squeeze L).data.map (fun x => expQ (x / 1)), 0 < y := by
      intro y hy
      obtain ⟨x, _, rfl⟩ := List.mem_map.mp hy
      exact expQ_pos _
    have hsum : 0 < ((Tensor.squeeze L).data.map (fun x => expQ (x / 1))).sum := by
      refine List.sum_pos _ hposw ?_
      intro hemp
      rw [hemp] at hlen
      simp only [List.length_nil] at hlen
      omega
    have hpick := multinomialPick_lt ((Tensor.squeeze L).data.map (fun x => expQ (x / 1)))
      (ur i * ((Tensor.squeeze L).data.map (fun x => expQ (x / 1))).sum)
      (mul_nonneg (hur i).1 hsum.le)
      (by calc ur i * ((Tensor.squeeze L).data.map (fun x => expQ (x / 1))).sum
            < 1 * ((Tensor.squeeze L).data.map (fun x => expQ (x / 1))).sum :=
              mul_lt_mul_of_pos_right (hur i).2 hsum
          _ = _ := one_mul _)
    rw [hlen] at hpick
    obtain ⟨cs, hcs, hlen', hmem⟩ := ih (i + 1)
      { shape := input.shape,
        data := input.data.map (fun _ => multinomialPick
          ((Tensor.squeeze L).data.map (fun x => expQ (x / 1)))
          (ur i * ((Tensor.squeeze L).data.map (fun x => expQ (x / 1))).sum)) }
      (HN, CN) hin
      (List.all_eq_true.mpr (fun j hj => by
        obtain ⟨x, _, rfl⟩ := List.mem_map.mp hj
        exact decide_eq_true (by rw [hNE]; exact hpick)))
      hHs hCs
    refine ⟨m.dictionary.idx2item.get ⟨_, hpick⟩ :: cs, ?_, by simp [hlen'], ?_⟩
    · simp only [genLoop, hF, exceptBind_ok, multinomial, if_pos hsum,
        dif_pos hpick, hcs]
      rfl
    · intro c hcmem
      rcases List.mem_cons.mp hcmem with rfl | hc'
      · exact List.get_mem _ _ _
      · exact hmem c hc'

end LM

namespace LM

/-- C3: `generate_text(0)` is the empty string, and for `n > 0` on a
non-empty dictionary `generate_text(n)` is the concatenation of exactly `n`
sampled dictionary symbols (stated for every `n`, the `n = 0` case joining
the empty symbol list). -/
theorem generate_text_spec :
    (∀ (m : LanguageModel) (u0 : ℚ) (ur : Nat → ℚ) (dm : Nat → Nat → Bool),
      m.generate_text 0 u0 ur dm = .ok "") ∧
    (∀ (d : Dictionary) (ifl : Bool) (hs nl es : Nat) (nout : Option Nat) (dr : ℚ)
        (u up ud : Nat → ℚ) (sq : ℚ → ℚ) (dev : Device) (n : Nat)
        (u0 : ℚ) (ur : Nat → ℚ) (dm : Nat → Nat → Bool),
      0 < d.size → 0 ≤ u0 → u0 < 1 → (∀ i, 0 ≤ ur i ∧ ur i < 1) →
      ∃ cs : List String,
        (LanguageModel.make d ifl hs nl es nout dr u up ud sq dev).generate_text n u0 ur dm
          = .ok (String.join cs) ∧ cs.length = n ∧ ∀ c ∈ cs, c ∈ d.idx2item) := by
  constructor
  · intro m u0 ur dm; rfl
  · intro d ifl hs nl es nout dr u up ud sq dev n u0 ur dm hpos h0 h1 hur
    have hnn : (0:ℚ) ≤ u0 * (d.idx2item.length : ℚ) := mul_nonneg h0 (by positivity)
    have hlt : u0 * (d.idx2item.length : ℚ) < (d.idx2item.length : ℚ) := by
      calc u0 * (d.idx2item.length : ℚ) < 1 * (d.idx2item.length : ℚ) :=
            mul_lt_mul_of_pos_right h1 (by exact_mod_cast hpos)
        _ = _ := one_mul _
    have hflb : (⌊u0 * (d.idx2item.length : ℚ)⌋).toNat < d.idx2item.length :=
      (Int.toNat_lt (Int.floor_nonneg.mpr hnn)).mpr
        (Int.floor_lt.mpr (by exact_mod_cast hlt))
    have hproj : ∀ p,
        (LanguageModel.make d ifl hs nl es nout dr u up ud sq dev).proj = some p →
        p.in_features
            = (LanguageModel.make d ifl hs nl es nout dr u up ud sq dev).rnn.hidden_size ∧
          p.out_features = nout.getD hs := by
      cases nout with
      | none => exact fun p hp => Option.noConfusion hp
      | some no => exact fun p hp => by injection hp with h; subst h; exact ⟨rfl, rfl⟩
    have hnoproj :
        (LanguageModel.make d ifl hs nl es nout dr u up ud sq dev).proj = none →
        (LanguageModel.make d ifl hs nl es nout dr u up ud sq dev).rnn.hidden_size
          = nout.getD hs := by
      cases nout with
      | none => exact fun _ => rfl
      | some no => exact fun hp => Option.noConfusion hp
    obtain ⟨cs, hcs, hlen, hmem⟩ :=
      genLoop_ok (LanguageModel.make d ifl hs nl es nout dr u up ud sq dev)
        (nout.getD hs) ur dm hur rfl hproj hnoproj
        (make_decoder_in d ifl hs nl es nout dr u up ud sq dev)
        (by rw [make_decoder_out]; rfl) rfl hpos n 0
        ⟨[1, 1], [(⌊u0 * (((LanguageModel.make d ifl hs nl es nout dr u up ud sq
          dev).dictionary.idx2item.length : Nat) : ℚ)⌋).toNat]⟩
        ((LanguageModel.make d ifl hs nl es nout dr u up ud sq dev).init_hidden 1) rfl
        (by simp only [List.all_cons, List.all_nil, Bool.and_true]
            exact decide_eq_true hflb)
        rfl rfl
    refine ⟨cs, ?_, hlen, fun c hc => hmem c hc⟩
    simp only [LanguageModel.generate_text, hcs, exceptBind_ok]
    rfl

/-- Witness for C3: a concrete two-symbol model, checked at `n = 0` and
`n = 2`. -/
theorem generate_text_spec_witness :
    ((LanguageModel.make ⟨["a", "b"]⟩ true 1 1 1 none (1/2) (fun _ => 0) (fun _ => 0)
        (fun _ => 0) (fun _ => 1) "cpu").generate_text 0 0 (fun _ => 0) (fun _ _ => false)
      = .ok "") ∧
    ∃ cs : List String,
      (LanguageModel.make ⟨["a", "b"]⟩ true 1 1 1 none (1/2) (fun _ => 0) (fun _ => 0)
          (fun _ => 0) (fun _ => 1) "cpu").generate_text 2 0 (fun _ => 0) (fun _ _ => false)
        = .ok (String.join cs) ∧ cs.length = 2 ∧
        ∀ c ∈ cs, c ∈ (⟨["a", "b"]⟩ : Dictionary).idx2item :=
  ⟨generate_text_spec.1 _ 0 (fun _ => 0) (fun _ _ => false),
   generate_text_spec.2 ⟨["a", "b"]⟩ true 1 1 1 none (1/2) (fun _ => 0) (fun _ => 0)
     (fun _ => 0) (fun _ => 1) "cpu" 2 0 (fun _ => 0) (fun _ _ => false)
     (by decide) le_rfl (by norm_num) (fun i => ⟨le_rfl, by norm_num⟩)⟩

end LM

namespace LM

/-- C5 counterexample: on a model whose dictionary is empty, `generate_text 0`
completes successfully with the empty string — no `ConfigurationError` (nor
any other failure) happens before the sampling loop starts. -/
theorem generate_text_empty_dict_no_error :
    (LanguageModel.make ⟨[]⟩ true 1 1 1 none (1/2) (fun _ => 0) (fun _ => 0)
        (fun _ => 0) (fun _ => 1) "cpu").generate_text 0 0 (fun _ => 0) (fun _ _ => false)
      = .ok "" := rfl

/-- Number of embeddings allocated by the constructor. -/
theorem make_encoder_num (d : Dictionary) (ifl : Bool) (hs nl es : Nat)
    (nout : Option Nat) (dr : ℚ) (u up ud : Nat → ℚ) (sq : ℚ → ℚ) (dev : Device) :
    (LanguageModel.make d ifl hs nl es nout dr u up ud sq dev).encoder.num_embeddings
      = d.size := rfl

/-- C5 amended: with an empty dictionary, `generate_text 0` succeeds with the
empty string (no check rejects the degenerate dictionary), and for `n > 0`
the call fails only once the first forward pass of the sampling loop performs
the embedding lookup, with an index error — not with a `ConfigurationError`
before the loop. -/
theorem generate_text_empty_dict_spec (ifl : Bool) (hs nl es : Nat) (nout : Option Nat)
    (dr : ℚ) (u up ud : Nat → ℚ) (sq : ℚ → ℚ) (dev : Device)
    (u0 : ℚ) (ur : Nat → ℚ) (dm : Nat → Nat → Bool) :
    ((LanguageModel.make ⟨[]⟩ ifl hs nl es nout dr u up ud sq dev).generate_text 0 u0 ur dm
      = .ok "") ∧
    ∀ n, 0 < n →
      (LanguageModel.make ⟨[]⟩ ifl hs nl es nout dr u up ud sq dev).generate_text n u0 ur dm
        = .error (Err.indexError "index out of range in self") := by
  refine ⟨rfl, ?_⟩
  intro n hn
  obtain ⟨k, rfl⟩ : ∃ k, n = k + 1 := ⟨n - 1, by omega⟩
  have hlk : (LanguageModel.make ⟨[]⟩ ifl hs nl es nout dr u up ud sq dev).encoder.lookup
      ⟨[1, 1], [(⌊u0 * (((LanguageModel.make ⟨[]⟩ ifl hs nl es nout dr u up ud sq
        dev).dictionary.idx2item.length : Nat) : ℚ)⌋).toNat]⟩
      = .error (.indexError "index out of range in self") := by
    unfold Embedding.lookup
    rw [if_neg (by simp [make_dictionary, make_encoder_num, Dictionary.size])]
  have hfwd : ∀ (hd : Tensor × Tensor) (dm1 dm2 : Nat → Bool),
      (LanguageModel.make ⟨[]⟩ ifl hs nl es nout dr u up ud sq dev).forward
        ⟨[1, 1], [(⌊u0 * (((LanguageModel.make ⟨[]⟩ ifl hs nl es nout dr u up ud sq
          dev).dictionary.idx2item.length : Nat) : ℚ)⌋).toNat]⟩ hd dm1 dm2
        = .error (.indexError "index out of range in self") := by
    intro hd dm1 dm2
    simp only [LanguageModel.forward, hlk, exceptBind_err]
  simp only [LanguageModel.generate_text, genLoop, hfwd, exceptBind_err]

end LM

namespace LM

/-- Witness for C5's amended statement at a concrete empty-dictionary model:
`n = 0` succeeds with `""`, `n = 1` fails with the embedding index error. -/
theorem generate_text_empty_dict_spec_witness :
    ((LanguageModel.make ⟨[]⟩ false 2 2 3 none (1/2) (fun _ => 0) (fun _ => 0)
        (fun _ => 0) (fun _ => 1) "gpu").generate_text 0 0 (fun _ => 0) (fun _ _ => false)
      = .ok "") ∧
    (LanguageModel.make ⟨[]⟩ false 2 2 3 none (1/2) (fun _ => 0) (fun _ => 0)
        (fun _ => 0) (fun _ => 1) "gpu").generate_text 1 0 (fun _ => 0) (fun _ _ => false)
      = .error (Err.indexError "index out of range in self") :=
  ⟨(generate_text_empty_dict_spec false 2 2 3 none (1/2) (fun _ => 0) (fun _ => 0)
      (fun _ => 0) (fun _ => 1) "gpu" 0 (fun _ => 0) (fun _ _ => false)).1,
   (generate_text_empty_dict_spec false 2 2 3 none (1/2) (fun _ => 0) (fun _ => 0)
      (fun _ => 0) (fun _ => 1) "gpu" 0 (fun _ => 0) (fun _ _ => false)).2 1 (by decide)⟩

/-- The constructor allocates exactly `nlayers` recurrent layers. -/
theorem make_rnn_layers_len (d : Dictionary) (ifl : Bool) (hs nl es : Nat)
    (nout : Option Nat) (dr : ℚ) (u up ud : Nat → ℚ) (sq : ℚ → ℚ) (dev : Device) :
    (LanguageModel.make d ifl hs nl es nout dr u up ud sq dev).rnn.layers.length = nl := by
  show ((List.range nl).map (mkLayer es hs ud)).length = nl
  simp

/-- The constructor allocates a projection exactly when `nout` is set. -/
theorem make_proj_isSome (d : Dictionary) (ifl : Bool) (hs nl es : Nat)
    (nout : Option Nat) (dr : ℚ) (u up ud : Nat → ℚ) (sq : ℚ → ℚ) (dev : Device) :
    (LanguageModel.make d ifl hs nl es nout dr u up ud sq dev).proj.isSome
      = nout.isSome := by
  cases nout <;> rfl

/-- Mapping a function over an option preserves presence. -/
theorem isSome_map {α β : Type} (f : α → β) (o : Option α) :
    (o.map f).isSome = o.isSome := by cases o <;> rfl

/-- `load_state_dict` succeeds when the saved parameters line up with the
module's own, and replaces exactly the weights. -/
theorem load_state_dict_ok (m : LanguageModel) (sd : StateDict)
    (h1 : sd.rnnLayers.length = m.rnn.layers.length)
    (h2 : sd.projW.isSome = m.proj.isSome) :
    ∃ m', m.load_state_dict sd = .ok m' ∧ m'.state_dict = sd ∧
      m'.training = m.training ∧ m'.device = m.device := by
  have heq : m.load_state_dict sd = .ok
      { m with
        encoder := { m.encoder with weight := sd.encoderWeight },
        rnn := { m.rnn with layers := sd.rnnLayers },
        proj := match m.proj, sd.projW with
          | some p, some wb => some { p with weight := wb.1, bias := wb.2 }
          | _, _ => none,
        decoder :=
          { m.decoder with weight := sd.decoderWeight, bias := sd.decoderBias } } := by
    unfold LanguageModel.load_state_dict
    rw [if_pos ⟨h1, h2⟩]
  refine ⟨_, heq, ?_, rfl, rfl⟩
  rcases sd with ⟨ew, rl, pw, dw, db⟩
  rcases hmp : m.proj with _ | p <;> rcases hpw : pw with _ | wb <;>
    simp_all [LanguageModel.state_dict, Option.isSome]

/-- C6: the model loader fails with a missing-key error whenever any required
configuration field is absent from the persisted record (a stored dropout,
when present, is assumed to be a genuine probability, as in every record
`save` writes — otherwise the rebuild itself raises first), and on a
complete, well-formed record returns a freshly built model carrying exactly
the saved weights, switched to inference mode, placed on the process-wide
device. -/
theorem load_language_model_spec :
    (∀ (r : Record) (u up ud : Nat → ℚ) (sq : ℚ → ℚ) (dev : Device),
      (∀ dr, r.dropout = some dr → 0 ≤ dr ∧ dr ≤ 1) →
      (r.state_dict = none ∨ r.dictionary = none ∨ r.is_forward_lm = none ∨
        r.hidden_size = none ∨ r.nlayers = none ∨ r.embedding_size = none ∨
        r.nout = none ∨ r.dropout = none) →
      ∃ k, LanguageModel.load_language_model r u up ud sq dev
        = .error (Err.keyError k)) ∧
    (∀ (sd : StateDict) (d : Dictionary) (ifl : Bool) (hs nl es : Nat)
        (no : Option Nat) (dr : ℚ) (osd : Option OptimState) (ep sp : Option Nat)
        (ls : Option ℚ) (u up ud : Nat → ℚ) (sq : ℚ → ℚ) (dev : Device),
      0 ≤ dr → dr ≤ 1 →
      sd.rnnLayers.length = nl → sd.projW.isSome = no.isSome →
      ∃ model,
        LanguageModel.load_language_model
          ⟨some sd, some d, some ifl, some hs, some nl, some es, some no, some dr,
            osd, ep, sp, ls⟩ u up ud sq dev = .ok model ∧
        model.state_dict = sd ∧ model.training = false ∧ model.device = dev) := by
  constructor
  · intro r u up ud sq dev hdr hmiss
    rcases r with ⟨osd, od, oifl, ohs, onl, oes, ono, odr, oo, oe, os, ol⟩
    cases od with
    | none => exact ⟨"dictionary", rfl⟩
    | some d =>
    cases oifl with
    | none => exact ⟨"is_forward_lm", rfl⟩
    | some ifl =>
    cases ohs with
    | none => exact ⟨"hidden_size", rfl⟩
    | some hs =>
    cases onl with
    | none => exact ⟨"nlayers", rfl⟩
    | some nl =>
    cases oes with
    | none => exact ⟨"embedding_size", rfl⟩
    | some es =>
    cases ono with
    | none => exact ⟨"nout", rfl⟩
    | some no =>
    cases odr with
    | none => exact ⟨"dropout", rfl⟩
    | some dr =>
    obtain ⟨h0, h1⟩ := hdr dr rfl
    cases osd with
    | none =>
      refine ⟨"state_dict", ?_⟩
      simp only [LanguageModel.load_language_model, getKey, exceptBind_ok,
        init_ok d ifl hs nl es no dr u up ud sq dev h0 h1]
      rfl
    | some sd =>
      rcases hmiss with h | h | h | h | h | h | h | h <;> exact Option.noConfusion h
  · intro sd d ifl hs nl es no dr osd ep sp ls u up ud sq dev hd0 hd1 hrl hps
    obtain ⟨m', hld, hsd', htr, hdev⟩ :=
      load_state_dict_ok (LanguageModel.make d ifl hs nl es no dr u up ud sq dev) sd
        (by rw [make_rnn_layers_len]; exact hrl)
        (by rw [make_proj_isSome]; exact hps)
    refine ⟨(m'.evalMode).toDevice dev, ?_, hsd', rfl, rfl⟩
    simp only [LanguageModel.load_language_model, getKey,
      init_ok d ifl hs nl es no dr u up ud sq dev hd0 hd1, exceptBind_ok, hld]
    rfl

end LM

namespace LM

/-- Witness for C6: a record missing `dropout` is rejected with a missing-key
error; the same record completed loads into an inference-mode model on the
requested device carrying the saved weights. -/
theorem load_language_model_spec_witness :
    (∃ k, LanguageModel.load_language_model
        ⟨some ⟨⟨[1, 1], [0], false⟩, [⟨[], [], [], []⟩], none, ⟨[1, 1], [0], false⟩,
            ⟨[1], [0], false⟩⟩,
          some ⟨["a"]⟩, some true, some 1, some 1, some 1, some none, none,
          none, none, none, none⟩
        (fun _ => 0) (fun _ => 0) (fun _ => 0) (fun _ => 1) "cpu"
        = .error (Err.keyError k)) ∧
    (∃ model, LanguageModel.load_language_model
        ⟨some ⟨⟨[1, 1], [0], false⟩, [⟨[], [], [], []⟩], none, ⟨[1, 1], [0], false⟩,
            ⟨[1], [0], false⟩⟩,
          some ⟨["a"]⟩, some true, some 1, some 1, some 1, some none, some (1/2),
          none, none, none, none⟩
        (fun _ => 0) (fun _ => 0) (fun _ => 0) (fun _ => 1) "cpu"
        = .ok model ∧
      model.state_dict = ⟨⟨[1, 1], [0], false⟩, [⟨[], [], [], []⟩], none,
        ⟨[1, 1], [0], false⟩, ⟨[1], [0], false⟩⟩ ∧
      model.training = false ∧ model.device = "cpu") :=
  ⟨load_language_model_spec.1 _ (fun _ => 0) (fun _ => 0) (fun _ => 0) (fun _ => 1) "cpu"
      (fun _ h => Option.noConfusion h)
      (Or.inr (Or.inr (Or.inr (Or.inr (Or.inr (Or.inr (Or.inr rfl))))))),
   load_language_model_spec.2
     ⟨⟨[1, 1], [0], false⟩, [⟨[], [], [], []⟩], none, ⟨[1, 1], [0], false⟩,
       ⟨[1], [0], false⟩⟩
     ⟨["a"]⟩ true 1 1 1 none (1/2) none none none none
     (fun _ => 0) (fun _ => 0) (fun _ => 0) (fun _ => 1) "cpu"
     (by norm_num) (by norm_num) rfl rfl⟩

/-- C7: `save_checkpoint` then `load_checkpoint` returns exactly the epoch,
split and loss supplied (and the saved optimizer state) for any model whose
stored dropout is a genuine probability — true of every constructed model,
since the constructor rejects the rest — and a record whose optional
progress fields are absent loads successfully with an explicit `none` marker
for each of them. -/
theorem checkpoint_roundtrip_spec :
    (∀ (m : LanguageModel) (opt : Optimizer) (e s : Nat) (l : ℚ)
        (u up ud : Nat → ℚ) (sq : ℚ → ℚ) (dev : Device),
      0 ≤ m.dropout → m.dropout ≤ 1 →
      m.rnn.layers.length = m.nlayers → m.proj.isSome = m.nout.isSome →
      ∃ cp, LanguageModel.load_checkpoint ((m.save_checkpoint opt e s l).1) u up ud sq dev
          = .ok cp ∧
        cp.epoch = some e ∧ cp.split = some s ∧ cp.loss = some l ∧
        cp.optimizer_state_dict = some opt.state_dict) ∧
    (∀ (sd : StateDict) (d : Dictionary) (ifl : Bool) (hs nl es : Nat)
        (no : Option Nat) (dr : ℚ) (u up ud : Nat → ℚ) (sq : ℚ → ℚ) (dev : Device),
      0 ≤ dr → dr ≤ 1 →
      sd.rnnLayers.length = nl → sd.projW.isSome = no.isSome →
      ∃ cp, LanguageModel.load_checkpoint
          ⟨some sd, some d, some ifl, some hs, some nl, some es, some no, some dr,
            none, none, none, none⟩ u up ud sq dev = .ok cp ∧
        cp.epoch = none ∧ cp.split = none ∧ cp.loss = none ∧
        cp.optimizer_state_dict = none) := by
  constructor
  · intro m opt e s l u up ud sq dev hd0 hd1 hrl hps
    obtain ⟨m', hld, _, _, _⟩ := load_state_dict_ok
      (LanguageModel.make m.dictionary m.is_forward_lm m.hidden_size m.nlayers
        m.embedding_size m.nout m.dropout u up ud sq dev) m.state_dict
      (by rw [make_rnn_layers_len]; exact hrl)
      (by rw [make_proj_isSome, ← hps]; exact isSome_map _ _)
    have hload : LanguageModel.load_checkpoint ((m.save_checkpoint opt e s l).1) u up ud
        sq dev = .ok ⟨(m'.evalMode).toDevice dev, some e, some s, some l,
          some opt.state_dict⟩ := by
      simp only [LanguageModel.load_checkpoint, LanguageModel.save_checkpoint, getKey,
        init_ok m.dictionary m.is_forward_lm m.hidden_size m.nlayers m.embedding_size
          m.nout m.dropout u up ud sq dev hd0 hd1, exceptBind_ok, hld]
      rfl
    exact ⟨_, hload, rfl, rfl, rfl, rfl⟩
  · intro sd d ifl hs nl es no dr u up ud sq dev hd0 hd1 hrl hps
    obtain ⟨m', hld, _, _, _⟩ := load_state_dict_ok
      (LanguageModel.make d ifl hs nl es no dr u up ud sq dev) sd
      (by rw [make_rnn_layers_len]; exact hrl)
      (by rw [make_proj_isSome]; exact hps)
    have hload : LanguageModel.load_checkpoint
        ⟨some sd, some d, some ifl, some hs, some nl, some es, some no, some dr,
          none, none, none, none⟩ u up ud sq dev
        = .ok ⟨(m'.evalMode).toDevice dev, none, none, none, none⟩ := by
      simp only [LanguageModel.load_checkpoint, getKey,
        init_ok d ifl hs nl es no dr u up ud sq dev hd0 hd1, exceptBind_ok, hld]
      rfl
    exact ⟨_, hload, rfl, rfl, rfl, rfl⟩

/-- Witness for C7 at a concrete one-layer model and a record with all
optional fields absent. -/
theorem checkpoint_roundtrip_spec_witness :
    (∃ cp, LanguageModel.load_checkpoint
        (((LanguageModel.make ⟨["a"]⟩ true 1 1 1 none (1/2) (fun _ => 0) (fun _ => 0)
          (fun _ => 0) (fun _ => 1) "cpu").save_checkpoint ⟨[1/3]⟩ 4 5 (7/2)).1)
        (fun _ => 0) (fun _ => 0) (fun _ => 0) (fun _ => 1) "cpu" = .ok cp ∧
      cp.epoch = some 4 ∧ cp.split = some 5 ∧ cp.loss = some (7/2) ∧
      cp.optimizer_state_dict = some (Optimizer.state_dict ⟨[1/3]⟩)) ∧
    (∃ cp, LanguageModel.load_checkpoint
        ⟨some ⟨⟨[1, 1], [0], false⟩, [⟨[], [], [], []⟩], none, ⟨[1, 1], [0], false⟩,
            ⟨[1], [0], false⟩⟩,
          some ⟨["a"]⟩, some true, some 1, some 1, some 1, some none, some (1/2),
          none, none, none, none⟩
        (fun _ => 0) (fun _ => 0) (fun _ => 0) (fun _ => 1) "cpu" = .ok cp ∧
      cp.epoch = none ∧ cp.split = none ∧ cp.loss = none ∧
      cp.optimizer_state_dict = none) :=
  ⟨checkpoint_roundtrip_spec.1
      (LanguageModel.make ⟨["a"]⟩ true 1 1 1 none (1/2) (fun _ => 0) (fun _ => 0)
        (fun _ => 0) (fun _ => 1) "cpu") ⟨[1/3]⟩ 4 5 (7/2)
      (fun _ => 0) (fun _ => 0) (fun _ => 0) (fun _ => 1) "cpu"
      (by show (0:ℚ) ≤ 1/2; norm_num) (by show (1:ℚ)/2 ≤ 1; norm_num) rfl rfl,
   checkpoint_roundtrip_spec.2
     ⟨⟨[1, 1], [0], false⟩, [⟨[], [], [], []⟩], none, ⟨[1, 1], [0], false⟩,
       ⟨[1], [0], false⟩⟩
     ⟨["a"]⟩ true 1 1 1 none (1/2) (fun _ => 0) (fun _ => 0) (fun _ => 0)
     (fun _ => 1) "cpu" (by norm_num) (by norm_num) rfl rfl⟩

end LM

namespace LM

/-- A uniform draw stays inside its interval. -/
theorem drawUniform_mem (lo hi t : ℚ) (hlo : lo ≤ hi) (h0 : 0 ≤ t) (h1 : t ≤ 1) :
    lo ≤ drawUniform lo hi t ∧ drawUniform lo hi t ≤ hi := by
  unfold drawUniform
  constructor <;> nlinarith

/-- Every member of a uniform fill is one stream draw. -/
theorem uniformData_mem (lo hi : ℚ) (u : Nat → ℚ) (n : Nat) (x : ℚ)
    (hx : x ∈ uniformData lo hi u n) : ∃ i, x = drawUniform lo hi (u i) := by
  obtain ⟨i, -, rfl⟩ := List.mem_map.mp hx
  exact ⟨i, rfl⟩

/-- C8: at construction the encoder embedding weights are drawn from
`[-0.1, 0.1]`, the decoder bias is zero, the decoder weights are drawn from
`[-0.1, 0.1]`, and a configured projection is drawn from `[-s, s]` with
`s = sqrt(3 / (in + out))` (equivalently `x * x * (in + out) <= 3` for every
entry); the whole initialisation is a function of the random streams only,
so a fixed seed reproduces it. -/
theorem init_weights_spec :
    (∀ (d : Dictionary) (ifl : Bool) (hs nl es : Nat) (nout : Option Nat) (dr : ℚ)
        (u up ud : Nat → ℚ) (sq : ℚ → ℚ) (dev : Device),
      (∀ i, 0 ≤ u i ∧ u i ≤ 1) →
      ((∀ x ∈ (LanguageModel.make d ifl hs nl es nout dr u up ud sq
            dev).encoder.weight.data, -(1/10) ≤ x ∧ x ≤ 1/10) ∧
       (∀ x ∈ (LanguageModel.make d ifl hs nl es nout dr u up ud sq
            dev).decoder.bias.data, x = 0) ∧
       (∀ x ∈ (LanguageModel.make d ifl hs nl es nout dr u up ud sq
            dev).decoder.weight.data, -(1/10) ≤ x ∧ x ≤ 1/10))) ∧
    (∀ (d : Dictionary) (ifl : Bool) (hs nl es no : Nat) (dr : ℚ)
        (u up ud : Nat → ℚ) (sq : ℚ → ℚ) (dev : Device) (p : Linear),
      (∀ i, 0 ≤ up i ∧ up i ≤ 1) →
      0 ≤ sq (3 / ((no : ℚ) + (hs : ℚ))) →
      sq (3 / ((no : ℚ) + (hs : ℚ))) * sq (3 / ((no : ℚ) + (hs : ℚ)))
        = 3 / ((no : ℚ) + (hs : ℚ)) →
      (LanguageModel.make d ifl hs nl es (some no) dr u up ud sq dev).proj = some p →
      ∀ x ∈ p.weight.data,
        -(sq (3 / ((no : ℚ) + (hs : ℚ)))) ≤ x ∧
        x ≤ sq (3 / ((no : ℚ) + (hs : ℚ))) ∧
        x * x * ((no : ℚ) + (hs : ℚ)) ≤ 3) ∧
    (∀ (d : Dictionary) (ifl : Bool) (hs nl es : Nat) (nout : Option Nat) (dr : ℚ)
        (u u' up up' ud ud' : Nat → ℚ) (sq sq' : ℚ → ℚ) (dev : Device),
      (∀ i, u i = u' i) → (∀ i, up i = up' i) → (∀ i, ud i = ud' i) →
      (∀ q, sq q = sq' q) →
      LanguageModel.make d ifl hs nl es nout dr u up ud sq dev
        = LanguageModel.make d ifl hs nl es nout dr u' up' ud' sq' dev) := by
  refine ⟨?_, ?_, ?_⟩
  · intro d ifl hs nl es nout dr u up ud sq dev hu
    refine ⟨?_, ?_, ?_⟩
    · intro x hx
      have hx' : x ∈ uniformData (-(1/10)) (1/10) u (([d.size, es] : List Nat).prod) := hx
      obtain ⟨i, rfl⟩ := uniformData_mem _ _ _ _ _ hx'
      exact drawUniform_mem _ _ _ (by norm_num) (hu i).1 (hu i).2
    · intro x hx
      cases nout with
      | none =>
        have hx' : x ∈ List.replicate (([d.size] : List Nat).prod) (0 : ℚ) := hx
        exact List.eq_of_mem_replicate hx'
      | some no =>
        have hx' : x ∈ List.replicate (([d.size] : List Nat).prod) (0 : ℚ) := hx
        exact List.eq_of_mem_replicate hx'
    · intro x hx
      cases nout with
      | none =>
        have hx' : x ∈ uniformData (-(1/10)) (1/10)
            (fun i => u (([d.size, es] : List Nat).prod + i))
            (([d.size, hs] : List Nat).prod) := hx
        obtain ⟨i, rfl⟩ := uniformData_mem _ _ _ _ _ hx'
        exact drawUniform_mem _ _ _ (by norm_num) (hu _).1 (hu _).2
      | some no =>
        have hx' : x ∈ uniformData (-(1/10)) (1/10)
            (fun i => u (([d.size, es] : List Nat).prod + i))
            (([d.size, no] : List Nat).prod) := hx
        obtain ⟨i, rfl⟩ := uniformData_mem _ _ _ _ _ hx'
        exact drawUniform_mem _ _ _ (by norm_num) (hu _).1 (hu _).2
  · intro d ifl hs nl es no dr u up ud sq dev p hup hsq0 hsq2 hp x hx
    injection hp with h
    subst h
    have hx' : x ∈ uniformData (-(sq (3 / ((no : ℚ) + (hs : ℚ)))))
        (sq (3 / ((no : ℚ) + (hs : ℚ)))) up (([no, hs] : List Nat).prod) := hx
    obtain ⟨i, rfl⟩ := uniformData_mem _ _ _ _ _ hx'
    have hb := drawUniform_mem (-(sq (3 / ((no : ℚ) + (hs : ℚ)))))
      (sq (3 / ((no : ℚ) + (hs : ℚ)))) (up i) (by linarith) (hup i).1 (hup i).2
    refine ⟨hb.1, hb.2, ?_⟩
    by_cases h0 : ((no : ℚ) + (hs : ℚ)) = 0
    · rw [h0, mul_zero]
      norm_num
    · have hpos : (0 : ℚ) < (no : ℚ) + (hs : ℚ) :=
        lt_of_le_of_ne (by positivity) (Ne.symm h0)
      have hxx : drawUniform (-(sq (3 / ((no : ℚ) + (hs : ℚ)))))
          (sq (3 / ((no : ℚ) + (hs : ℚ)))) (up i)
          * drawUniform (-(sq (3 / ((no : ℚ) + (hs : ℚ)))))
            (sq (3 / ((no : ℚ) + (hs : ℚ)))) (up i)
          ≤ sq (3 / ((no : ℚ) + (hs : ℚ))) * sq (3 / ((no : ℚ) + (hs : ℚ))) := by
        nlinarith [hb.1, hb.2]
      calc drawUniform (-(sq (3 / ((no : ℚ) + (hs : ℚ)))))
            (sq (3 / ((no : ℚ) + (hs : ℚ)))) (up i)
            * drawUniform (-(sq (3 / ((no : ℚ) + (hs : ℚ)))))
              (sq (3 / ((no : ℚ) + (hs : ℚ)))) (up i) * ((no : ℚ) + (hs : ℚ))
          ≤ sq (3 / ((no : ℚ) + (hs : ℚ))) * sq (3 / ((no : ℚ) + (hs : ℚ)))
              * ((no : ℚ) + (hs : ℚ)) := by nlinarith
        _ = 3 / ((no : ℚ) + (hs : ℚ)) * ((no : ℚ) + (hs : ℚ)) := by rw [hsq2]
        _ = 3 := div_mul_cancel₀ 3 h0
  · intro d ifl hs nl es nout dr u u' up up' ud ud' sq sq' dev h1 h2 h3 h4
    rw [show u = u' from funext h1, show up = up' from funext h2,
      show ud = ud' from funext h3, show sq = sq' from funext h4]

end LM

namespace LM

/-- Witness for C8 at a one-symbol model with `hidden_size = 10` and a
projection of width `2`, where `sqrt(3 / 12) = 1 / 2` exactly, using the
constant stream `1 / 2`. -/
theorem init_weights_spec_witness :
    ((∀ x ∈ (LanguageModel.make ⟨["a"]⟩ true 10 1 1 (some 2) (1/2) (fun _ => 1/2)
          (fun _ => 1/2) (fun _ => 0) (fun _ => 1/2) "cpu").encoder.weight.data,
        -(1/10) ≤ x ∧ x ≤ 1/10) ∧
      (∀ x ∈ (LanguageModel.make ⟨["a"]⟩ true 10 1 1 (some 2) (1/2) (fun _ => 1/2)
          (fun _ => 1/2) (fun _ => 0) (fun _ => 1/2) "cpu").decoder.bias.data, x = 0) ∧
      (∀ x ∈ (LanguageModel.make ⟨["a"]⟩ true 10 1 1 (some 2) (1/2) (fun _ => 1/2)
          (fun _ => 1/2) (fun _ => 0) (fun _ => 1/2) "cpu").decoder.weight.data,
        -(1/10) ≤ x ∧ x ≤ 1/10)) ∧
    (∀ x ∈ (projInit (defTensor [2, 10] (fun _ => 0)) (fun _ => 1/2)
        (fun _ => 1/2)).data,
      -((1:ℚ)/2) ≤ x ∧ x ≤ (1:ℚ)/2 ∧ x * x * (((2:ℕ) : ℚ) + ((10:ℕ) : ℚ)) ≤ 3) ∧
    LanguageModel.make ⟨["a"]⟩ true 10 1 1 (some 2) (1/2) (fun _ => 1/2)
        (fun _ => 1/2) (fun _ => 0) (fun _ => 1/2) "cpu"
      = LanguageModel.make ⟨["a"]⟩ true 10 1 1 (some 2) (1/2) (fun _ => 1/2)
        (fun _ => 1/2) (fun _ => 0) (fun _ => 1/2) "cpu" :=
  ⟨init_weights_spec.1 ⟨["a"]⟩ true 10 1 1 (some 2) (1/2) (fun _ => 1/2)
      (fun _ => 1/2) (fun _ => 0) (fun _ => 1/2) "cpu"
      (fun _ => ⟨by norm_num, by norm_num⟩),
   init_weights_spec.2.1 ⟨["a"]⟩ true 10 1 1 2 (1/2) (fun _ => 1/2)
     (fun _ => 1/2) (fun _ => 0) (fun _ => 1/2) "cpu" _
     (fun _ => ⟨by norm_num, by norm_num⟩) (by norm_num) (by norm_num) rfl,
   init_weights_spec.2.2 ⟨["a"]⟩ true 10 1 1 (some 2) (1/2) (fun _ => 1/2)
     (fun _ => 1/2) (fun _ => 1/2) (fun _ => 1/2) (fun _ => 0) (fun _ => 0)
     (fun _ => 1/2) (fun _ => 1/2) "cpu"
     (fun _ => rfl) (fun _ => rfl) (fun _ => rfl) (fun _ => rfl)⟩

end LM
